import Mathlib

/-!
Verification of the pull-request Conversation activity assembler and the
comment mutation gateway (src/web/src/pages/PullRequest/Conversation/Conversation.tsx),
and of the status-check upsert store (internal/store/database, checks table).

The TypeScript and Go sources are shallowly embedded as pure Lean functions.
Timestamps are integers, identifiers are naturals, and the string tags
(`kind`, payload `type`) are plain strings as in the source.
-/

/-- One pull-request activity record, as consumed by the Conversation component
(`TypesPullReqActivity`). Fields are the ones the assembler reads: `id`,
`parent_id` (absent on thread roots), the record kind (`user` or `system`),
the payload type tag, the `edited` timestamp used for ordering, plus the
author / text / created fields that the item mapper preserves. -/
structure TypesPullReqActivity where
  id : Nat
  parent_id : Option Nat
  kind : String
  type : String
  author : String
  text : String
  created : Int
  edited : Int
  deriving Repr, DecidableEq, Inhabited

/-- Normalized display item produced by the comment item mapper
(`CommentItem` of components/CommentBox). It keeps the author, the
timestamps, the rendered content and a back-reference to the full
originating activity record in `payload`. -/
structure CommentItem where
  author : String
  created : Int
  updated : Int
  content : String
  payload : TypesPullReqActivity
  deriving Repr, DecidableEq, Inhabited

/-- Modelled from the spec: `activityToCommentItem`
(components/DiffViewer/DiffViewerUtils, not among the sampled files) is the
CommentItemMapper, a pure total map from one activity record to one
CommentItem that preserves the author, both timestamps, the content and the
full original record as `payload`. -/
def activityToCommentItem (activity : TypesPullReqActivity) : CommentItem :=
  { author := activity.author
    created := activity.created
    updated := activity.edited
    content := activity.text
    payload := activity }

/-- Modelled from the spec: the payload type tags of system events
(`CommentType` of components/DiffViewer/DiffViewerUtils, not among the
sampled files). Only the title-change tag is read by the assembler. -/
def CommentType.TITLE_CHANGE : String := "title-change"

/-- Modelled from the spec: the merge system-event tag. -/
def CommentType.MERGE : String := "merge"

/-- Modelled from the spec: the code-comment payload tag. -/
def CommentType.CODE_COMMENT : String := "code-comment"

/-- The comparison used by `orderBy(..., [edited], [desc])`: a record sorts
before another when its `edited` timestamp is at least as large. -/
def editedDescRel (a b : TypesPullReqActivity) : Prop := b.edited ≤ a.edited

instance : DecidableRel editedDescRel := fun a b =>
  inferInstanceAs (Decidable (b.edited ≤ a.edited))

instance : IsTotal TypesPullReqActivity editedDescRel :=
  ⟨fun a b => (Int.le_total b.edited a.edited).imp id id⟩

instance : IsTrans TypesPullReqActivity editedDescRel :=
  ⟨fun _ _ _ h1 h2 => Int.le_trans h2 h1⟩

/-- Stable descending sort by the `edited` timestamp, the embedding of the
lodash `orderBy(xs, [edited], [desc])` calls (lodash orderBy is a stable
sort; insertion sort with a reflexive total comparison is stable as well). -/
def sortByEditedDesc (l : List TypesPullReqActivity) : List TypesPullReqActivity :=
  List.insertionSort editedDescRel l

/-- The root test of the assembler, line 70 of Conversation.tsx:
`!activity.parent_id`. In JavaScript this is true when `parent_id` is
absent and also when it is the (falsy) number 0, which `Option.getD 0`
captures exactly. -/
def isRootActivity (activity : TypesPullReqActivity) : Bool :=
  activity.parent_id.getD 0 == 0

/-- One thread: a root record followed by every record of the fetched
collection whose `parent_id` strictly equals the root id, in fetch order
(lines 74 to 81 of Conversation.tsx: the filter over `activities` pushed
onto `parentActivity`). -/
def threadOfRoot (activities : List TypesPullReqActivity)
    (root : TypesPullReqActivity) : List TypesPullReqActivity :=
  root :: activities.filter (fun activity => activity.parent_id == some root.id)

/-- The per-root activity groups (the `parentActivities` array of
Conversation.tsx after children have been pushed): roots filtered with
`!activity.parent_id`, ordered by `edited` descending, each followed by its
children. -/
def parentActivities (activities : List TypesPullReqActivity) :
    List (List TypesPullReqActivity) :=
  (sortByEditedDesc (activities.filter (fun activity => isRootActivity activity))).map
    (threadOfRoot activities)

/-- The blocks built from the fetched records: each per-root group mapped
through `activityToCommentItem` (line 84 of Conversation.tsx). -/
def fetchedBlocks (activities : List TypesPullReqActivity) : List (List CommentItem) :=
  (parentActivities activities).map (fun parentActivity =>
    parentActivity.map activityToCommentItem)

/-- The block built from the local draft comments (lines 65 to 67 of
Conversation.tsx): when `newComments` is non-empty, a single block holding
all drafts ordered by `edited` descending is pushed first. -/
def draftBlocks (newComments : List TypesPullReqActivity) : List (List CommentItem) :=
  if newComments.isEmpty then []
  else [(sortByEditedDesc newComments).map activityToCommentItem]

/-- Predicate of line 369 of Conversation.tsx: a block is a system block
when the record behind its first element has kind `system`. The source
indexes element 0 unconditionally and is only applied to non-empty blocks;
the empty case is completed with `false`. -/
def isSystemComment (commentItems : List CommentItem) : Bool :=
  match commentItems with
  | c :: _ => c.payload.kind == "system"
  | [] => false

/-- The payload type tag of the first element of a block. -/
def blockType (commentItems : List CommentItem) : Option String :=
  commentItems.head?.map (fun c => c.payload.type)

/-- The filter predicate of lines 88 to 91 of Conversation.tsx: a block is a
title-change block when it is a system block and its first element carries
the title-change payload tag. -/
def isTitleChangeBlock (commentItems : List CommentItem) : Bool :=
  isSystemComment commentItems && blockType commentItems == some CommentType.TITLE_CHANGE

/-- The absorption loop of lines 93 to 100 of Conversation.tsx. Walking the
block list in order: the first title-change block is replaced by `merged`
(the concatenation of every title-change block, which the source produces by
pushing the later blocks onto the first one in place), every later
title-change block is dropped (the source filters them out by reference),
and all other blocks are kept unchanged. -/
def mergeTitleBlocks (merged : List CommentItem) :
    List (List CommentItem) → Bool → List (List CommentItem)
  | [], _ => []
  | b :: bs, isFirst =>
    if isTitleChangeBlock b then
      if isFirst then merged :: mergeTitleBlocks merged bs false
      else mergeTitleBlocks merged bs false
    else b :: mergeTitleBlocks merged bs isFirst

/-- Title-change coalescing over a block list: the canonical (first)
title-change block receives the elements of every title-change block in
encounter order, the absorbed blocks disappear from the sequence. -/
def coalesceTitleChanges (blocks : List (List CommentItem)) : List (List CommentItem) :=
  mergeTitleBlocks ((blocks.filter isTitleChangeBlock).flatten) blocks true

/-- The full assembler of lines 60 to 101 of Conversation.tsx: the draft
block (if any) first, then the per-root blocks ordered by root `edited`
descending, with title-change coalescing applied to the whole sequence. -/
def activityBlocks (activities newComments : List TypesPullReqActivity) :
    List (List CommentItem) :=
  coalesceTitleChanges (draftBlocks newComments ++ fetchedBlocks activities)

/-- The id of the record behind the first element of a block, used to state
thread integrity. -/
def blockRootId (commentItems : List CommentItem) : Option Nat :=
  commentItems.head?.map (fun c => c.payload.id)

/-- The `edited` timestamp of the record behind the first element of a
block (0 for an empty block), used to state block ordering. -/
def rootEdited (commentItems : List CommentItem) : Int :=
  (commentItems.head?.map (fun c => c.payload.edited)).getD 0

/-- A fetched record that is a thread root (in the sense of the source root
test), has kind `system` and carries the title-change tag; the subjects of
the coalescing claims. -/
def isTitleChangeRoot (activity : TypesPullReqActivity) : Bool :=
  isRootActivity activity && activity.kind == "system"
    && activity.type == CommentType.TITLE_CHANGE

/-! ### The comment mutation gateway -/

/-- The three user actions dispatched by the `handleAction` callback of
Conversation.tsx (`CommentAction` of components/CommentBox). -/
inductive CommentAction where
  | delete
  | reply
  | update
  deriving Repr, DecidableEq

/-- One request issued to the backend: the delete, create and update
endpoints keyed as in lines 106 to 108 of Conversation.tsx. -/
inductive BackendCall where
  | deleteReq (id : Option Nat)
  | saveReq (text : String) (parent_id : Option Nat)
  | updateReq (id : Option Nat) (text : String)
  deriving Repr, DecidableEq

/-- The environment a gateway invocation runs against: whether the user
confirms the delete dialog, and the outcome each backend endpoint would
produce (the resulting record on success, the error message otherwise). -/
structure BackendEnv where
  confirmDelete : Bool
  deleteResult : Except String Unit
  saveResult : Except String TypesPullReqActivity
  updateResult : Except String TypesPullReqActivity

/-- The observable outcome of one gateway invocation: the `[result,
updatedItem]` pair returned to the CommentBox, the backend requests that
were issued, and the error notifications shown via `showError`. -/
structure HandleOutcome where
  result : Bool
  updatedItem : Option CommentItem
  calls : List BackendCall
  errors : List String
  deriving Repr, DecidableEq

/-- Modelled from the spec: `getErrorMessage` (utils/Utils, not among the
sampled files) derives the human-readable text surfaced to the user from
the backend error; the error message text is surfaced verbatim. -/
def getErrorMessage (exception : String) : String := exception

/-- The thread-scoped `handleAction` callback of lines 152 to 199 of
Conversation.tsx. `result` starts as `true` and `updatedItem` as absent.
Delete first resets `result` to `false`, then runs the backend call only
inside the user confirmation; reply posts a new comment under the thread
root; update patches the target comment. Every catch branch sets `result`
to `false` and shows one error. -/
def handleAction (env : BackendEnv) (action : CommentAction) (value : String)
    (threadId : Nat) (commentItem : Option CommentItem) : HandleOutcome :=
  let id : Option Nat := commentItem.map (fun ci => ci.payload.id)
  match action with
  | .delete =>
    if env.confirmDelete then
      match env.deleteResult with
      | .ok _ =>
        { result := true, updatedItem := none
          calls := [.deleteReq id], errors := [] }
      | .error exception =>
        { result := false, updatedItem := none
          calls := [.deleteReq id], errors := [getErrorMessage exception] }
    else
      { result := false, updatedItem := none, calls := [], errors := [] }
  | .reply =>
    match env.saveResult with
    | .ok newComment =>
      { result := true, updatedItem := some (activityToCommentItem newComment)
        calls := [.saveReq value (some threadId)], errors := [] }
    | .error exception =>
      { result := false, updatedItem := none
        calls := [.saveReq value (some threadId)]
        errors := [getErrorMessage exception] }
  | .update =>
    match env.updateResult with
    | .ok newComment =>
      { result := true, updatedItem := some (activityToCommentItem newComment)
        calls := [.updateReq id value], errors := [] }
    | .error exception =>
      { result := false, updatedItem := none
        calls := [.updateReq id value], errors := [getErrorMessage exception] }

/-- The top-level new-comment `handleAction` of lines 216 to 231 of
Conversation.tsx: a save with no parent. On success the mapped record is
returned and the raw record is appended to the `newComments` draft buffer;
on failure one error is shown and the buffer is untouched. Returns the
outcome together with the draft buffer after the action. -/
def handleNewCommentAction (env : BackendEnv) (value : String)
    (newComments : List TypesPullReqActivity) :
    HandleOutcome × List TypesPullReqActivity :=
  match env.saveResult with
  | .ok newComment =>
    ({ result := true, updatedItem := some (activityToCommentItem newComment)
       calls := [.saveReq value none], errors := [] },
     newComments ++ [newComment])
  | .error exception =>
    ({ result := false, updatedItem := none
       calls := [.saveReq value none], errors := [getErrorMessage exception] },
     newComments)

/-! ### The status-check store (checks table) -/

/-- The payload component of a status check (`types.CheckPayload`). -/
structure CheckPayload where
  version : String
  kind : String
  data : String
  deriving Repr, DecidableEq, Inhabited

/-- The status check as handled by the store API (`types.Check`), with the
fields `mapInternalCheck` reads and the three fields the upsert writes
back. -/
structure TypesCheck where
  id : Int
  createdBy : Int
  created : Int
  updated : Int
  repoID : Int
  commitSHA : String
  uid : String
  status : String
  summary : String
  link : String
  metadata : String
  payload : CheckPayload
  deriving Repr, DecidableEq, Inhabited

/-- One row of the `checks` table (the internal `check` struct of the
database package, one field per `check_` column). -/
structure check where
  id : Int
  created_by : Int
  created : Int
  updated : Int
  repo_id : Int
  commit_sha : String
  uid : String
  status : String
  summary : String
  link : String
  payload : String
  metadata : String
  payload_kind : String
  payload_version : String
  deriving Repr, DecidableEq, Inhabited

/-- `mapInternalCheck` of the database package: flattens a `types.Check`
into a row value (the row id travels along but is ignored by the insert
column list). -/
def mapInternalCheck (c : TypesCheck) : check :=
  { id := c.id
    created_by := c.createdBy
    created := c.created
    updated := c.updated
    repo_id := c.repoID
    commit_sha := c.commitSHA
    uid := c.uid
    status := c.status
    summary := c.summary
    link := c.link
    payload := c.payload.data
    metadata := c.metadata
    payload_kind := c.payload.kind
    payload_version := c.payload.version }

/-- The natural key of the `checks` table, the conflict target of the
upsert: `(check_repo_id, check_commit_sha, check_uid)`. -/
def sameCheckKey (a b : check) : Bool :=
  a.repo_id == b.repo_id && a.commit_sha == b.commit_sha && a.uid == b.uid

/-- The `DO UPDATE SET` clause of the upsert statement: only the updated
timestamp, status, summary, link, payload, metadata, payload kind and
payload version columns are overwritten; id, creator, creation time and the
natural key stay as stored. -/
def conflictUpdate (old new : check) : check :=
  { old with
    updated := new.updated
    status := new.status
    summary := new.summary
    link := new.link
    payload := new.payload
    metadata := new.metadata
    payload_kind := new.payload_kind
    payload_version := new.payload_version }

/-- The `checks` table state: the stored rows plus the next value of the
auto-assigned `check_id`. -/
structure ChecksTable where
  rows : List check
  nextID : Int
  deriving Repr, DecidableEq

namespace CheckStore

/-- `CheckStore.Upsert` (the SQL of lines 77 to 132 of the database file):
insert the bound row; on conflict with the natural key apply the
`DO UPDATE SET` clause to the stored row; in both cases the returned
`check_id, check_created_by, check_created` columns are scanned back into
the argument check. The unique natural key of the table makes the first
matching row the only one. -/
def Upsert (db : ChecksTable) (c : TypesCheck) : ChecksTable × TypesCheck :=
  let n := mapInternalCheck c
  match db.rows.find? (fun r => sameCheckKey r n) with
  | some row =>
    ({ db with
       rows := db.rows.map (fun r => if sameCheckKey r n then conflictUpdate r n else r) },
     { c with id := row.id, createdBy := row.created_by, created := row.created })
  | none =>
    ({ db with
       rows := db.rows ++ [{ n with id := db.nextID }]
       nextID := db.nextID + 1 },
     { c with id := db.nextID })

end CheckStore

/-! ### Helper lemmas about the assembler -/

theorem isTitleChangeBlock_nil : isTitleChangeBlock [] = false := rfl

theorem isTitleChangeBlock_cons_append (c : CommentItem) (t l : List CommentItem) :
    isTitleChangeBlock ((c :: t) ++ l) = isTitleChangeBlock (c :: t) := rfl

theorem rootEdited_cons_append (c : CommentItem) (t l : List CommentItem) :
    rootEdited ((c :: t) ++ l) = rootEdited (c :: t) := rfl

theorem isTitleChangeBlock_map_cons (a : TypesPullReqActivity)
    (t : List TypesPullReqActivity) :
    isTitleChangeBlock ((a :: t).map activityToCommentItem)
      = (a.kind == "system" && a.type == CommentType.TITLE_CHANGE) := rfl

/-- After the canonical block has been emitted, the walk only keeps blocks
of the original list (every title-change block is dropped). -/
theorem mergeTitleBlocks_false_sublist (merged : List CommentItem)
    (bs : List (List CommentItem)) :
    (mergeTitleBlocks merged bs false).Sublist bs := by
  induction bs with
  | nil => simp [mergeTitleBlocks]
  | cons b bs ih =>
    by_cases h : isTitleChangeBlock b = true
    · simpa [mergeTitleBlocks, h] using ih.cons b
    · simpa [mergeTitleBlocks, h] using ih.cons₂ b

/-- After the canonical block has been emitted, every kept block is a block
that is not a title-change block. -/
theorem not_title_of_mem_mergeTitleBlocks_false (merged : List CommentItem)
    (bs : List (List CommentItem)) (B : List CommentItem)
    (hB : B ∈ mergeTitleBlocks merged bs false) : isTitleChangeBlock B = false := by
  induction bs with
  | nil => simp [mergeTitleBlocks] at hB
  | cons b bs ih =>
    by_cases h : isTitleChangeBlock b = true
    · rw [show mergeTitleBlocks merged (b :: bs) false = mergeTitleBlocks merged bs false
          from by simp [mergeTitleBlocks, h]] at hB
      exact ih hB
    · rw [show mergeTitleBlocks merged (b :: bs) false
            = b :: mergeTitleBlocks merged bs false
          from by simp [mergeTitleBlocks, h]] at hB
      rcases List.mem_cons.mp hB with rfl | hB'
      · simpa using h
      · exact ih hB'

/-- If no block of the list is a title-change block, the absorption walk is
the identity. -/
theorem mergeTitleBlocks_of_no_title (merged : List CommentItem)
    (bs : List (List CommentItem)) (first : Bool)
    (h : ∀ b ∈ bs, isTitleChangeBlock b = false) :
    mergeTitleBlocks merged bs first = bs := by
  induction bs generalizing first with
  | nil => simp [mergeTitleBlocks]
  | cons b bs ih =>
    have hb := h b (List.mem_cons_self b bs)
    simp [mergeTitleBlocks, hb, ih first (fun x hx => h x (List.mem_cons_of_mem b hx))]

/-- A prefix free of title-change blocks passes through the absorption walk
unchanged. -/
theorem mergeTitleBlocks_append_no_title (merged : List CommentItem)
    (pre post : List (List CommentItem))
    (h : ∀ b ∈ pre, isTitleChangeBlock b = false) :
    mergeTitleBlocks merged (pre ++ post) true
      = pre ++ mergeTitleBlocks merged post true := by
  induction pre with
  | nil => simp
  | cons b pre ih =>
    have hb := h b (List.mem_cons_self b pre)
    simp [mergeTitleBlocks, hb, ih (fun x hx => h x (List.mem_cons_of_mem b hx))]

/-- Every block of the absorption result is either an original block or the
merged block, and the merged block only shows up when some title-change
block was present. -/
theorem mem_mergeTitleBlocks (merged : List CommentItem)
    (bs : List (List CommentItem)) (first : Bool) (B : List CommentItem)
    (hB : B ∈ mergeTitleBlocks merged bs first) :
    B ∈ bs ∨ (B = merged ∧ ∃ b ∈ bs, isTitleChangeBlock b = true) := by
  induction bs generalizing first with
  | nil => simp [mergeTitleBlocks] at hB
  | cons b bs ih =>
    by_cases h : isTitleChangeBlock b = true
    · cases first with
      | true =>
        rw [show mergeTitleBlocks merged (b :: bs) true
              = merged :: mergeTitleBlocks merged bs false
            from by simp [mergeTitleBlocks, h]] at hB
        rcases List.mem_cons.mp hB with rfl | hB'
        · exact Or.inr ⟨rfl, b, List.mem_cons_self b bs, h⟩
        · rcases ih false hB' with hmem | ⟨rfl, b', hb', hPb'⟩
          · exact Or.inl (List.mem_cons_of_mem b hmem)
          · exact Or.inr ⟨rfl, b', List.mem_cons_of_mem b hb', hPb'⟩
      | false =>
        rw [show mergeTitleBlocks merged (b :: bs) false = mergeTitleBlocks merged bs false
            from by simp [mergeTitleBlocks, h]] at hB
        rcases ih false hB with hmem | ⟨rfl, b', hb', hPb'⟩
        · exact Or.inl (List.mem_cons_of_mem b hmem)
        · exact Or.inr ⟨rfl, b', List.mem_cons_of_mem b hb', hPb'⟩
    · rw [show mergeTitleBlocks merged (b :: bs) first
            = b :: mergeTitleBlocks merged bs first
          from by simp [mergeTitleBlocks, h]] at hB
      rcases List.mem_cons.mp hB with rfl | hB'
      · exact Or.inl (List.mem_cons_self B bs)
      · rcases ih first hB' with hmem | ⟨rfl, b', hb', hPb'⟩
        · exact Or.inl (List.mem_cons_of_mem b hmem)
        · exact Or.inr ⟨rfl, b', List.mem_cons_of_mem b hb', hPb'⟩

/-- When some title-change block is present and the merged block itself is a
title-change block, the absorption result contains exactly one title-change
block, namely the merged one. -/
theorem filter_mergeTitleBlocks (merged : List CommentItem)
    (bs : List (List CommentItem))
    (hex : ∃ b ∈ bs, isTitleChangeBlock b = true)
    (hm : isTitleChangeBlock merged = true) :
    (mergeTitleBlocks merged bs true).filter isTitleChangeBlock = [merged] := by
  induction bs with
  | nil => simp at hex
  | cons b bs ih =>
    by_cases h : isTitleChangeBlock b = true
    · rw [show mergeTitleBlocks merged (b :: bs) true
            = merged :: mergeTitleBlocks merged bs false
          from by simp [mergeTitleBlocks, h]]
      rw [List.filter_cons_of_pos hm]
      have hnil : (mergeTitleBlocks merged bs false).filter isTitleChangeBlock = [] := by
        rw [List.filter_eq_nil_iff]
        intro B hB
        simp [not_title_of_mem_mergeTitleBlocks_false merged bs B hB]
      rw [hnil]
    · obtain ⟨b', hb', hPb'⟩ := hex
      have hb'bs : b' ∈ bs := by
        rcases List.mem_cons.mp hb' with rfl | h'
        · exact absurd hPb' h
        · exact h'
      rw [show mergeTitleBlocks merged (b :: bs) true
            = b :: mergeTitleBlocks merged bs true
          from by simp [mergeTitleBlocks, h]]
      rw [List.filter_cons_of_neg (by simp [h])]
      exact ih ⟨b', hb'bs, hPb'⟩

/-- The concatenation of the title-change blocks is itself a title-change
block and has the root timestamp of the first of them. -/
theorem flatten_filter_title (bs : List (List CommentItem)) (b₀ : List CommentItem)
    (rest : List (List CommentItem))
    (h : bs.filter isTitleChangeBlock = b₀ :: rest) :
    isTitleChangeBlock ((bs.filter isTitleChangeBlock).flatten) = true ∧
      rootEdited ((bs.filter isTitleChangeBlock).flatten) = rootEdited b₀ := by
  have hb₀ : isTitleChangeBlock b₀ = true := by
    have hmem : b₀ ∈ bs.filter isTitleChangeBlock := by
      rw [h]; exact List.mem_cons_self b₀ rest
    exact (List.mem_filter.mp hmem).2
  cases b₀ with
  | nil => simp [isTitleChangeBlock, isSystemComment] at hb₀
  | cons c t =>
    rw [h, List.flatten_cons]
    exact ⟨by rw [isTitleChangeBlock_cons_append]; exact hb₀,
      rootEdited_cons_append c t rest.flatten⟩

/-- The root timestamps of the absorption result form a sublist of the root
timestamps of the input blocks, provided the merged block carries the root
timestamp of the first title-change block. -/
theorem rootEdited_mergeTitleBlocks_sublist (merged : List CommentItem)
    (bs : List (List CommentItem))
    (h : ∀ b₀ rest, bs.filter isTitleChangeBlock = b₀ :: rest →
      rootEdited merged = rootEdited b₀) :
    ((mergeTitleBlocks merged bs true).map rootEdited).Sublist (bs.map rootEdited) := by
  induction bs with
  | nil => simp [mergeTitleBlocks]
  | cons b bs ih =>
    by_cases hb : isTitleChangeBlock b = true
    · have hm : rootEdited merged = rootEdited b :=
        h b (bs.filter isTitleChangeBlock) (List.filter_cons_of_pos hb)
      rw [show mergeTitleBlocks merged (b :: bs) true
            = merged :: mergeTitleBlocks merged bs false
          from by simp [mergeTitleBlocks, hb]]
      rw [List.map_cons, List.map_cons, hm]
      exact ((mergeTitleBlocks_false_sublist merged bs).map rootEdited).cons₂ _
    · have h' : ∀ b₀ rest, bs.filter isTitleChangeBlock = b₀ :: rest →
          rootEdited merged = rootEdited b₀ := by
        intro b₀ rest hfil
        exact h b₀ rest (by rw [List.filter_cons_of_neg (by simp [hb])]; exact hfil)
      rw [show mergeTitleBlocks merged (b :: bs) true
            = b :: mergeTitleBlocks merged bs true
          from by simp [mergeTitleBlocks, hb]]
      rw [List.map_cons, List.map_cons]
      exact (ih h').cons₂ _

/-- The per-root block of a title-change root lands in the fetched blocks
and is a title-change block. -/
theorem titleRoot_block_mem (acts : List TypesPullReqActivity)
    (a : TypesPullReqActivity) (ha : a ∈ acts) (hP : isTitleChangeRoot a = true) :
    (threadOfRoot acts a).map activityToCommentItem ∈ fetchedBlocks acts ∧
      isTitleChangeBlock ((threadOfRoot acts a).map activityToCommentItem) = true := by
  simp only [isTitleChangeRoot, Bool.and_eq_true, beq_iff_eq] at hP
  obtain ⟨⟨hroot, hkind⟩, htype⟩ := hP
  have hafil : a ∈ acts.filter (fun activity => isRootActivity activity) :=
    List.mem_filter.mpr ⟨ha, hroot⟩
  have hasort : a ∈ sortByEditedDesc (acts.filter (fun activity => isRootActivity activity)) := by
    unfold sortByEditedDesc
    exact (List.mem_insertionSort editedDescRel).mpr hafil
  constructor
  · exact List.mem_map_of_mem _ (List.mem_map_of_mem (threadOfRoot acts) hasort)
  · simp only [threadOfRoot, isTitleChangeBlock_map_cons, hkind, htype]
    simp

/-- Fixture: a title-change system root edited at 200. -/
def tcRootA : TypesPullReqActivity :=
  { id := 1, parent_id := none, kind := "system", type := CommentType.TITLE_CHANGE,
    author := "alice", text := "", created := 200, edited := 200 }

/-- Fixture: a title-change system root edited at 50. -/
def tcRootB : TypesPullReqActivity :=
  { id := 2, parent_id := none, kind := "system", type := CommentType.TITLE_CHANGE,
    author := "bob", text := "", created := 50, edited := 50 }

/-- Fixture: a user thread root edited at 100. -/
def userRoot : TypesPullReqActivity :=
  { id := 3, parent_id := none, kind := "user", type := "comment",
    author := "carol", text := "root", created := 100, edited := 100 }

/-- Fixture: a reply to `userRoot`. -/
def userChild : TypesPullReqActivity :=
  { id := 4, parent_id := some 3, kind := "user", type := "comment",
    author := "dave", text := "reply", created := 110, edited := 110 }

/-- Fixture: a local draft comment edited at 100. -/
def draftOne : TypesPullReqActivity :=
  { id := 10, parent_id := none, kind := "user", type := "comment",
    author := "erin", text := "draft1", created := 100, edited := 100 }

/-- Fixture: a local draft comment edited at 300. -/
def draftTwo : TypesPullReqActivity :=
  { id := 11, parent_id := none, kind := "user", type := "comment",
    author := "erin", text := "draft2", created := 300, edited := 300 }

/-- C1: for every input with at least two title-change system thread roots,
the output has exactly one title-change block, and that block contains all
such records. -/
theorem titleChange_coalesced (acts drafts : List TypesPullReqActivity)
    (h : 2 ≤ (acts.filter isTitleChangeRoot).length) :
    ∃ B, (activityBlocks acts drafts).filter isTitleChangeBlock = [B] ∧
      ∀ a ∈ acts, isTitleChangeRoot a = true → activityToCommentItem a ∈ B := by
  have hne : acts.filter isTitleChangeRoot ≠ [] := by
    intro hnil
    rw [hnil] at h
    simp at h
  obtain ⟨a, ha⟩ := List.exists_mem_of_ne_nil _ hne
  obtain ⟨hamem, haP⟩ := List.mem_filter.mp ha
  obtain ⟨hBfb, hBP⟩ := titleRoot_block_mem acts a hamem haP
  have hBall : (threadOfRoot acts a).map activityToCommentItem
      ∈ draftBlocks drafts ++ fetchedBlocks acts :=
    List.mem_append.mpr (Or.inr hBfb)
  have hex : ∃ b ∈ draftBlocks drafts ++ fetchedBlocks acts,
      isTitleChangeBlock b = true := ⟨_, hBall, hBP⟩
  have hfil_ne : (draftBlocks drafts ++ fetchedBlocks acts).filter isTitleChangeBlock ≠ [] := by
    intro hnil
    have hmemfil := List.mem_filter.mpr ⟨hBall, hBP⟩
    rw [hnil] at hmemfil
    simp at hmemfil
  obtain ⟨b₀, rest, hfil⟩ := List.exists_cons_of_ne_nil hfil_ne
  have hPM := (flatten_filter_title _ b₀ rest hfil).1
  refine ⟨((draftBlocks drafts ++ fetchedBlocks acts).filter isTitleChangeBlock).flatten,
    filter_mergeTitleBlocks _ _ hex hPM, ?_⟩
  intro x hx hPx
  obtain ⟨hxfb, hxP⟩ := titleRoot_block_mem acts x hx hPx
  have hxall : (threadOfRoot acts x).map activityToCommentItem
      ∈ draftBlocks drafts ++ fetchedBlocks acts :=
    List.mem_append.mpr (Or.inr hxfb)
  have hxfil : (threadOfRoot acts x).map activityToCommentItem
      ∈ (draftBlocks drafts ++ fetchedBlocks acts).filter isTitleChangeBlock :=
    List.mem_filter.mpr ⟨hxall, hxP⟩
  refine List.mem_flatten.mpr ⟨(threadOfRoot acts x).map activityToCommentItem, hxfil, ?_⟩
  simp only [threadOfRoot, List.map_cons]
  exact List.mem_cons_self _ _

/-- C1 witness: two title-change roots coalesce into one block. -/
theorem titleChange_coalesced_witness :
    ∃ B, (activityBlocks [tcRootA, tcRootB] []).filter isTitleChangeBlock = [B] ∧
      ∀ a ∈ [tcRootA, tcRootB], isTitleChangeRoot a = true → activityToCommentItem a ∈ B :=
  titleChange_coalesced [tcRootA, tcRootB] [] (by decide)

/-- C2 counterexample: with two title-change roots the coalesced block
holds a second root whose parent id is absent, so thread integrity does not
hold for every produced block. -/
theorem thread_integrity_cex :
    ¬ (∀ B ∈ activityBlocks [tcRootA, tcRootB] [], ∀ c ∈ B.tail,
        c.payload.parent_id = blockRootId B) := by decide

/-- C2 amended: thread integrity holds for every produced block other than
the aggregated drafts block and the coalesced title-change block: each
element after the first is a fetched child whose parent id is the id of the
root in front of the block. -/
theorem thread_integrity_amended (acts drafts : List TypesPullReqActivity) :
    ∀ B ∈ activityBlocks acts drafts, isTitleChangeBlock B = false →
      B ∉ draftBlocks drafts →
      ∀ c ∈ B.tail, c.payload.parent_id = blockRootId B := by
  intro B hB hnotTitle hnotDraft c hc
  rcases mem_mergeTitleBlocks _ _ _ B hB with hmem | ⟨rfl, b', hb', hPb'⟩
  · rcases List.mem_append.mp hmem with hdraft | hfetch
    · exact absurd hdraft hnotDraft
    · obtain ⟨pa, hpa, rfl⟩ := List.mem_map.mp hfetch
      obtain ⟨root, hroot, rfl⟩ := List.mem_map.mp hpa
      simp only [threadOfRoot, List.map_cons, List.tail_cons] at hc
      obtain ⟨x, hx, rfl⟩ := List.mem_map.mp hc
      have hxp := (List.mem_filter.mp hx).2
      simp only [beq_iff_eq] at hxp
      simp [blockRootId, threadOfRoot, activityToCommentItem, hxp]
  · exfalso
    have hfil_ne : (draftBlocks drafts ++ fetchedBlocks acts).filter isTitleChangeBlock
        ≠ [] := by
      intro hnil
      have hmemfil := List.mem_filter.mpr ⟨hb', hPb'⟩
      rw [hnil] at hmemfil
      simp at hmemfil
    obtain ⟨b₀, rest, hfil⟩ := List.exists_cons_of_ne_nil hfil_ne
    have hPM := (flatten_filter_title _ b₀ rest hfil).1
    rw [hnotTitle] at hPM
    exact Bool.false_ne_true hPM

/-- C2 witness: in a plain user thread the reply carries the root id. -/
theorem thread_integrity_amended_witness :
    (activityToCommentItem userChild).payload.parent_id
      = blockRootId [activityToCommentItem userRoot, activityToCommentItem userChild] :=
  thread_integrity_amended [userRoot, userChild] []
    [activityToCommentItem userRoot, activityToCommentItem userChild]
    (by decide) (by decide) (by decide)
    (activityToCommentItem userChild) (by decide)

/-- C3 counterexample: two drafts do not produce two single-element blocks;
they are gathered into one block of length two. -/
theorem drafts_single_block_cex :
    ¬ ((activityBlocks [] [draftOne, draftTwo]).map List.length = [1, 1]) := by decide

/-- C3 amended: all drafts are gathered into a single block, ordered by the
edited timestamp descending, and that block is placed ahead of every other
block. -/
theorem drafts_single_block (acts drafts : List TypesPullReqActivity)
    (h1 : drafts ≠ []) (h2 : ∀ d ∈ drafts, d.kind ≠ "system") :
    (activityBlocks acts drafts).head?
      = some ((sortByEditedDesc drafts).map activityToCommentItem) := by
  have hni : drafts.isEmpty = false := by
    cases drafts with
    | nil => exact absurd rfl h1
    | cons d ds => rfl
  have hsne : sortByEditedDesc drafts ≠ [] := by
    intro hnil
    have hperm := List.perm_insertionSort editedDescRel drafts
    unfold sortByEditedDesc at hnil
    rw [hnil] at hperm
    exact h1 hperm.nil_eq.symm
  obtain ⟨d₀, ds, hds⟩ := List.exists_cons_of_ne_nil hsne
  have hd₀ : d₀ ∈ drafts := by
    have hmem : d₀ ∈ sortByEditedDesc drafts := by
      rw [hds]; exact List.mem_cons_self _ _
    exact (List.mem_insertionSort editedDescRel).mp hmem
  have hPD : isTitleChangeBlock ((sortByEditedDesc drafts).map activityToCommentItem)
      = false := by
    rw [hds, isTitleChangeBlock_map_cons]
    have hk : d₀.kind ≠ "system" := h2 d₀ hd₀
    simp [hk]
  have hdb : draftBlocks drafts = [(sortByEditedDesc drafts).map activityToCommentItem] := by
    simp [draftBlocks, hni]
  have hsplit : ∀ (M : List CommentItem) (fb : List (List CommentItem)),
      mergeTitleBlocks M (((sortByEditedDesc drafts).map activityToCommentItem) :: fb) true
        = ((sortByEditedDesc drafts).map activityToCommentItem)
            :: mergeTitleBlocks M fb true := by
    intro M fb
    simp [mergeTitleBlocks, hPD]
  simp only [activityBlocks, coalesceTitleChanges, hdb, List.singleton_append]
  rw [hsplit]
  rfl

/-- C3 witness: two user drafts become one descending block placed first. -/
theorem drafts_single_block_witness :
    (activityBlocks [] [draftOne, draftTwo]).head?
      = some ((sortByEditedDesc [draftOne, draftTwo]).map activityToCommentItem) :=
  drafts_single_block [] [draftOne, draftTwo] (by decide) (by decide)

/-- Draft records of kind other than system never form a title-change
block. -/
theorem draftBlocks_no_title (drafts : List TypesPullReqActivity)
    (h : ∀ d ∈ drafts, d.kind ≠ "system") :
    ∀ b ∈ draftBlocks drafts, isTitleChangeBlock b = false := by
  intro b hb
  unfold draftBlocks at hb
  by_cases hni : drafts.isEmpty
  · simp [hni] at hb
  · simp only [hni, Bool.false_eq_true, if_false, List.mem_singleton] at hb
    subst hb
    cases hds : sortByEditedDesc drafts with
    | nil => simp [hds, isTitleChangeBlock, isSystemComment]
    | cons d₀ ds =>
      have hd₀ : d₀ ∈ drafts := by
        have hmem : d₀ ∈ sortByEditedDesc drafts := by
          rw [hds]; exact List.mem_cons_self _ _
        exact (List.mem_insertionSort editedDescRel).mp hmem
      rw [isTitleChangeBlock_map_cons]
      simp [h d₀ hd₀]

/-- C4: drafts precede every fetched block, draft items are ordered by
edited descending inside their block, and the fetched blocks stay ordered
by root edited descending after coalescing. -/
theorem block_ordering (acts drafts : List TypesPullReqActivity)
    (hdk : ∀ d ∈ drafts, d.kind ≠ "system") :
    activityBlocks acts drafts
        = draftBlocks drafts ++ coalesceTitleChanges (fetchedBlocks acts)
      ∧ (∀ B ∈ draftBlocks drafts,
          B.Pairwise (fun x y => y.payload.edited ≤ x.payload.edited))
      ∧ (coalesceTitleChanges (fetchedBlocks acts)).Pairwise
          (fun B C => rootEdited C ≤ rootEdited B) := by
  have hpre := draftBlocks_no_title drafts hdk
  have hfilpre : (draftBlocks drafts).filter isTitleChangeBlock = [] := by
    rw [List.filter_eq_nil_iff]
    intro b hb
    simp [hpre b hb]
  refine ⟨?_, ?_, ?_⟩
  · have hM : (draftBlocks drafts ++ fetchedBlocks acts).filter isTitleChangeBlock
        = (fetchedBlocks acts).filter isTitleChangeBlock := by
      rw [List.filter_append, hfilpre, List.nil_append]
    simp only [activityBlocks, coalesceTitleChanges, hM]
    exact mergeTitleBlocks_append_no_title _ _ _ hpre
  · intro B hB
    unfold draftBlocks at hB
    by_cases hni : drafts.isEmpty
    · simp [hni] at hB
    · simp only [hni, Bool.false_eq_true, if_false, List.mem_singleton] at hB
      subst hB
      have hsorted : (sortByEditedDesc drafts).Pairwise editedDescRel :=
        List.sorted_insertionSort editedDescRel drafts
      exact List.pairwise_map.mpr hsorted
  · have hroots_sorted :
        (sortByEditedDesc (acts.filter (fun a => isRootActivity a))).Pairwise
          editedDescRel :=
      List.sorted_insertionSort editedDescRel _
    have hfb : (fetchedBlocks acts).map rootEdited
        = (sortByEditedDesc (acts.filter (fun a => isRootActivity a))).map
            (fun c => c.edited) := by
      simp only [fetchedBlocks, parentActivities, List.map_map]
      apply List.map_congr_left
      intro x hx
      simp [Function.comp, threadOfRoot, rootEdited, activityToCommentItem]
    have hfb_pw : ((fetchedBlocks acts).map rootEdited).Pairwise
        (fun x y : Int => y ≤ x) := by
      rw [hfb]
      exact List.pairwise_map.mpr hroots_sorted
    have hsub : ((coalesceTitleChanges (fetchedBlocks acts)).map rootEdited).Sublist
        ((fetchedBlocks acts).map rootEdited) := by
      unfold coalesceTitleChanges
      apply rootEdited_mergeTitleBlocks_sublist
      intro b₀ rest hfil
      exact (flatten_filter_title _ b₀ rest hfil).2
    exact List.pairwise_map.mp (hfb_pw.sublist hsub)

/-- C4 witness: one draft ahead of a user thread, ordering facts hold. -/
theorem block_ordering_witness :
    activityBlocks [userRoot, userChild] [draftOne]
        = draftBlocks [draftOne]
            ++ coalesceTitleChanges (fetchedBlocks [userRoot, userChild])
      ∧ (∀ B ∈ draftBlocks [draftOne],
          B.Pairwise (fun x y => y.payload.edited ≤ x.payload.edited))
      ∧ (coalesceTitleChanges (fetchedBlocks [userRoot, userChild])).Pairwise
          (fun B C => rootEdited C ≤ rootEdited B) :=
  block_ordering [userRoot, userChild] [draftOne] (by decide)

/-- Fixture: a record whose parent id is the falsy number 0. -/
def orphanZero : TypesPullReqActivity :=
  { id := 5, parent_id := some 0, kind := "user", type := "comment",
    author := "zed", text := "zero", created := 10, edited := 10 }

/-- Fixture: a record whose parent id 99 matches no other record. -/
def orphanRec : TypesPullReqActivity :=
  { id := 6, parent_id := some 99, kind := "user", type := "comment",
    author := "oscar", text := "lost", created := 20, edited := 20 }

/-- Erasing an element a Bool predicate rejects does not change the
filtered list. -/
theorem filter_erase_of_neg {α : Type} [DecidableEq α] (p : α → Bool) (l : List α)
    (a : α) (h : p a = false) : (l.erase a).filter p = l.filter p := by
  induction l with
  | nil => simp
  | cons x xs ih =>
    by_cases hxa : x = a
    · subst hxa
      rw [List.erase_cons_head, List.filter_cons_of_neg (by simp [h])]
    · rw [List.erase_cons_tail (by simp [hxa])]
      by_cases hpx : p x = true
      · rw [List.filter_cons_of_pos hpx, List.filter_cons_of_pos hpx, ih]
      · rw [List.filter_cons_of_neg (by simpa using hpx),
          List.filter_cons_of_neg (by simpa using hpx), ih]

/-- Every item of a pre-coalescing block is a draft, a fetched root, or a
fetched child matched to some root. -/
theorem mem_block_payload (acts drafts : List TypesPullReqActivity)
    (b : List CommentItem) (hb : b ∈ draftBlocks drafts ++ fetchedBlocks acts)
    (c : CommentItem) (hc : c ∈ b) :
    c.payload ∈ drafts
      ∨ (c.payload ∈ acts ∧ isRootActivity c.payload = true)
      ∨ (∃ root, root ∈ acts ∧ isRootActivity root = true
          ∧ c.payload.parent_id = some root.id) := by
  rcases List.mem_append.mp hb with hd | hf
  · left
    unfold draftBlocks at hd
    by_cases hni : drafts.isEmpty
    · simp [hni] at hd
    · simp only [hni, Bool.false_eq_true, if_false, List.mem_singleton] at hd
      subst hd
      obtain ⟨d, hdmem, rfl⟩ := List.mem_map.mp hc
      have hdd : d ∈ drafts := (List.mem_insertionSort editedDescRel).mp hdmem
      simpa [activityToCommentItem] using hdd
  · obtain ⟨pa, hpa, rfl⟩ := List.mem_map.mp hf
    obtain ⟨root, hrootmem, rfl⟩ := List.mem_map.mp hpa
    have hrootfil : root ∈ acts.filter (fun a => isRootActivity a) :=
      (List.mem_insertionSort editedDescRel).mp hrootmem
    obtain ⟨hrootacts, hrootP⟩ := List.mem_filter.mp hrootfil
    obtain ⟨x, hx, rfl⟩ := List.mem_map.mp hc
    simp only [threadOfRoot] at hx
    rcases List.mem_cons.mp hx with rfl | hxtail
    · right; left
      exact ⟨hrootacts, hrootP⟩
    · right; right
      have hxp := (List.mem_filter.mp hxtail).2
      simp only [beq_iff_eq] at hxp
      exact ⟨root, hrootacts, hrootP, by simpa [activityToCommentItem] using hxp⟩

/-- C5 counterexample: a record with the falsy parent id 0 matching no
record is not dropped; the source root test `!activity.parent_id` promotes
it to its own block. -/
theorem orphan_never_appears_cex :
    ∃ B ∈ activityBlocks [orphanZero] [], ∃ c ∈ B, c.payload = orphanZero := by decide

/-- C5 amended: a fetched record whose parent id is present and nonzero and
matches no root id never appears in any output block, and erasing it from
the input leaves the output unchanged. -/
theorem orphan_never_appears (acts drafts : List TypesPullReqActivity)
    (r : TypesPullReqActivity) (p : Nat)
    (hp : r.parent_id = some p) (hp0 : p ≠ 0)
    (hroots : ∀ a ∈ acts, isRootActivity a = true → a.id ≠ p)
    (hdr : r ∉ drafts) :
    (∀ B ∈ activityBlocks acts drafts, ∀ c ∈ B, c.payload ≠ r)
      ∧ activityBlocks (acts.erase r) drafts = activityBlocks acts drafts := by
  constructor
  · intro B hB c hc hcr
    have hball : ∃ b ∈ draftBlocks drafts ++ fetchedBlocks acts, c ∈ b := by
      rcases mem_mergeTitleBlocks _ _ _ B hB with hmem | ⟨rfl, _, _, _⟩
      · exact ⟨B, hmem, hc⟩
      · obtain ⟨b, hbfil, hcb⟩ := List.mem_flatten.mp hc
        exact ⟨b, (List.mem_filter.mp hbfil).1, hcb⟩
    obtain ⟨b, hb, hcb⟩ := hball
    rcases mem_block_payload acts drafts b hb c hcb with hd | ⟨_, hroot⟩
      | ⟨root, hra, hrP, hpar⟩
    · rw [hcr] at hd
      exact hdr hd
    · rw [hcr] at hroot
      unfold isRootActivity at hroot
      rw [hp] at hroot
      simp at hroot
      exact hp0 hroot
    · rw [hcr, hp] at hpar
      have hpid : p = root.id := by
        injection hpar
      exact hroots root hra hrP hpid.symm
  · have hfr : isRootActivity r = false := by
      unfold isRootActivity
      rw [hp]
      simpa using hp0
    have hrootsfil : (acts.erase r).filter (fun a => isRootActivity a)
        = acts.filter (fun a => isRootActivity a) :=
      filter_erase_of_neg _ acts r hfr
    have hthread : ∀ a ∈ sortByEditedDesc (acts.filter (fun a => isRootActivity a)),
        threadOfRoot (acts.erase r) a = threadOfRoot acts a := by
      intro a ha
      have hafil := (List.mem_insertionSort editedDescRel).mp ha
      obtain ⟨haacts, haP⟩ := List.mem_filter.mp hafil
      have hid := hroots a haacts haP
      have hne : (r.parent_id == some a.id) = false := by
        rw [hp]
        simp only [beq_eq_false_iff_ne, ne_eq, Option.some.injEq]
        exact fun hh => hid hh.symm
      unfold threadOfRoot
      rw [filter_erase_of_neg _ acts r hne]
    unfold activityBlocks coalesceTitleChanges fetchedBlocks parentActivities
    rw [hrootsfil, List.map_congr_left hthread]

/-- C5 witness: a record pointing at the absent parent 99 is dropped and
does not influence the remaining thread. -/
theorem orphan_never_appears_witness :
    (∀ B ∈ activityBlocks [userRoot, orphanRec] [], ∀ c ∈ B, c.payload ≠ orphanRec)
      ∧ activityBlocks ([userRoot, orphanRec].erase orphanRec) []
          = activityBlocks [userRoot, orphanRec] [] :=
  orphan_never_appears [userRoot, orphanRec] [] orphanRec 99
    (by decide) (by decide) (by decide) (by decide)

/-- Fixture: an environment where the user declines the delete dialog. -/
def envDeclined : BackendEnv :=
  { confirmDelete := false, deleteResult := Except.ok ()
    saveResult := Except.error "down", updateResult := Except.error "down" }

/-- Fixture: the record the backend returns for a successful save. -/
def replyRecord : TypesPullReqActivity :=
  { id := 20, parent_id := some 3, kind := "user", type := "comment",
    author := "erin", text := "lgtm", created := 400, edited := 400 }

/-- Fixture: an environment whose save endpoint succeeds. -/
def envSaveOk : BackendEnv :=
  { confirmDelete := true, deleteResult := Except.ok ()
    saveResult := Except.ok replyRecord, updateResult := Except.ok replyRecord }

/-- Fixture: an environment whose save endpoint fails. -/
def envSaveFail : BackendEnv :=
  { confirmDelete := true, deleteResult := Except.ok ()
    saveResult := Except.error "boom", updateResult := Except.error "boom" }

/-- C6: a delete the user does not confirm issues no backend request and
resolves to false with no item. -/
theorem delete_declined_no_call (env : BackendEnv) (value : String) (threadId : Nat)
    (commentItem : Option CommentItem) (h : env.confirmDelete = false) :
    handleAction env CommentAction.delete value threadId commentItem
      = { result := false, updatedItem := none, calls := [], errors := [] } := by
  simp [handleAction, h]

/-- C6 witness: the declined environment produces the empty outcome. -/
theorem delete_declined_no_call_witness :
    handleAction envDeclined CommentAction.delete "x" 1 none
      = { result := false, updatedItem := none, calls := [], errors := [] } :=
  delete_declined_no_call envDeclined "x" 1 none rfl

/-- C7: a reply returns the mapped new record on success; on failure it
returns false with no item and shows exactly one error notification. -/
theorem reply_contract (env : BackendEnv) (value : String) (threadId : Nat)
    (commentItem : Option CommentItem) :
    (∀ r, env.saveResult = Except.ok r →
        handleAction env CommentAction.reply value threadId commentItem
          = { result := true, updatedItem := some (activityToCommentItem r)
              calls := [BackendCall.saveReq value (some threadId)], errors := [] })
      ∧ (∀ e, env.saveResult = Except.error e →
          (handleAction env CommentAction.reply value threadId commentItem).result = false
            ∧ (handleAction env CommentAction.reply value threadId
                commentItem).updatedItem = none
            ∧ (handleAction env CommentAction.reply value threadId
                commentItem).errors.length = 1) := by
  constructor
  · intro r hr
    simp [handleAction, hr]
  · intro e he
    simp [handleAction, he]

/-- C7 witness: a successful and a failing reply behave as stated. -/
theorem reply_contract_witness :
    handleAction envSaveOk CommentAction.reply "lgtm" 3 none
        = { result := true, updatedItem := some (activityToCommentItem replyRecord)
            calls := [BackendCall.saveReq "lgtm" (some 3)], errors := [] }
      ∧ (handleAction envSaveFail CommentAction.reply "lgtm" 3 none).result = false :=
  ⟨(reply_contract envSaveOk "lgtm" 3 none).1 replyRecord rfl,
   ((reply_contract envSaveFail "lgtm" 3 none).2 "boom" rfl).1⟩

/-- C8: a successful top-level comment appends the raw record to the end of
the draft buffer and returns the mapped record; a failed one leaves the
buffer untouched and returns false with no item. -/
theorem new_comment_contract (env : BackendEnv) (value : String)
    (buf : List TypesPullReqActivity) :
    (∀ r, env.saveResult = Except.ok r →
        handleNewCommentAction env value buf
          = ({ result := true, updatedItem := some (activityToCommentItem r)
               calls := [BackendCall.saveReq value none], errors := [] }, buf ++ [r]))
      ∧ (∀ e, env.saveResult = Except.error e →
          (handleNewCommentAction env value buf).2 = buf
            ∧ (handleNewCommentAction env value buf).1.result = false
            ∧ (handleNewCommentAction env value buf).1.updatedItem = none) := by
  constructor
  · intro r hr
    simp [handleNewCommentAction, hr]
  · intro e he
    simp [handleNewCommentAction, he]

/-- C8 witness: the draft buffer grows by the new record on success and is
unchanged on failure. -/
theorem new_comment_contract_witness :
    handleNewCommentAction envSaveOk "lgtm" [draftOne]
        = ({ result := true, updatedItem := some (activityToCommentItem replyRecord)
             calls := [BackendCall.saveReq "lgtm" none], errors := [] },
           [draftOne] ++ [replyRecord])
      ∧ (handleNewCommentAction envSaveFail "lgtm" [draftOne]).2 = [draftOne] :=
  ⟨(new_comment_contract envSaveOk "lgtm" [draftOne]).1 replyRecord rfl,
   ((new_comment_contract envSaveFail "lgtm" [draftOne]).2 "boom" rfl).1⟩

/-- C9: the assembler is a pure function of the two input collections: on
equal inputs it yields structurally identical output. The source computes
the blocks from its two arguments alone and mutates only arrays it
allocates itself, never the inputs. -/
theorem activityBlocks_deterministic
    (acts₁ acts₂ drafts₁ drafts₂ : List TypesPullReqActivity)
    (ha : acts₁ = acts₂) (hd : drafts₁ = drafts₂) :
    activityBlocks acts₁ drafts₁ = activityBlocks acts₂ drafts₂ := by
  rw [ha, hd]

/-- C9 witness: two runs on the same concrete input agree. -/
theorem activityBlocks_deterministic_witness :
    activityBlocks [userRoot] [draftOne] = activityBlocks [userRoot] [draftOne] :=
  activityBlocks_deterministic [userRoot] [userRoot] [draftOne] [draftOne] rfl rfl

/-- Fixture: a stored check row for repo 1, commit abc, uid ci. -/
def checkRowOld : check :=
  { id := 7, created_by := 42, created := 1000, updated := 1000,
    repo_id := 1, commit_sha := "abc", uid := "ci", status := "pending",
    summary := "s", link := "l", payload := "p", metadata := "m",
    payload_kind := "k", payload_version := "1" }

/-- Fixture: an upsert argument with the same natural key and new data. -/
def checkNew : TypesCheck :=
  { id := 0, createdBy := 0, created := 2000, updated := 2000,
    repoID := 1, commitSHA := "abc", uid := "ci", status := "success",
    summary := "done", link := "l2", metadata := "m2",
    payload := { version := "1", kind := "k", data := "p2" } }

/-- Fixture: a table holding the old row. -/
def checksDb : ChecksTable := { rows := [checkRowOld], nextID := 8 }

/-- C10: an upsert hitting an existing natural key leaves creator and
creation time (and id and key) of the stored row unchanged, overwrites only
the updated, status, summary, link, payload, metadata, payload kind and
payload version columns, leaves non-matching rows in place, and writes the
stored id, creator and creation time back into the argument check. -/
theorem upsert_conflict_frame (db : ChecksTable) (c : TypesCheck) (row : check)
    (hfind : db.rows.find? (fun r => sameCheckKey r (mapInternalCheck c)) = some row) :
    (∀ r ∈ db.rows, sameCheckKey r (mapInternalCheck c) = false →
        r ∈ (CheckStore.Upsert db c).1.rows)
      ∧ (∀ r ∈ db.rows, sameCheckKey r (mapInternalCheck c) = true →
          ∃ r' ∈ (CheckStore.Upsert db c).1.rows,
            r'.created_by = r.created_by ∧ r'.created = r.created ∧ r'.id = r.id
              ∧ r'.repo_id = r.repo_id ∧ r'.commit_sha = r.commit_sha ∧ r'.uid = r.uid
              ∧ r'.updated = c.updated ∧ r'.status = c.status ∧ r'.summary = c.summary
              ∧ r'.link = c.link ∧ r'.payload = c.payload.data ∧ r'.metadata = c.metadata
              ∧ r'.payload_kind = c.payload.kind
              ∧ r'.payload_version = c.payload.version)
      ∧ (CheckStore.Upsert db c).2
          = { c with
              id := row.id
              createdBy := row.created_by
              created := row.created } := by
  have hup : CheckStore.Upsert db c
      = ({ db with rows := db.rows.map (fun r =>
              if sameCheckKey r (mapInternalCheck c) then conflictUpdate r (mapInternalCheck c)
              else r) },
         { c with id := row.id, createdBy := row.created_by, created := row.created }) := by
    simp only [CheckStore.Upsert, hfind]
  refine ⟨?_, ?_, ?_⟩
  · intro r hr hkey
    rw [hup]
    have hmem := List.mem_map_of_mem (fun r =>
      if sameCheckKey r (mapInternalCheck c) then conflictUpdate r (mapInternalCheck c)
      else r) hr
    simpa [hkey] using hmem
  · intro r hr hkey
    rw [hup]
    refine ⟨conflictUpdate r (mapInternalCheck c), ?_, ?_⟩
    · have hmem := List.mem_map_of_mem (fun r =>
        if sameCheckKey r (mapInternalCheck c) then conflictUpdate r (mapInternalCheck c)
        else r) hr
      simpa [hkey] using hmem
    · simp [conflictUpdate, mapInternalCheck]
  · rw [hup]

/-- C10 witness: upserting over the stored row writes back id 7, creator 42
and creation time 1000. -/
theorem upsert_conflict_frame_witness :
    (CheckStore.Upsert checksDb checkNew).2
      = { checkNew with
          id := checkRowOld.id
          createdBy := checkRowOld.created_by
          created := checkRowOld.created } :=
  (upsert_conflict_frame checksDb checkNew checkRowOld rfl).2.2
